import Mathlib

/-!
Shallow embedding of the Core War MARS simulator implemented in
`src/islands/CoreWarGame.tsx`, together with proofs of the specification
claims about it.

Conventions of the embedding:
* JavaScript numbers holding integer values are modelled as `Int`
  (values stay far below 2^53, so JS arithmetic on them is exact).
* JavaScript `%` is the truncating remainder, modelled by `Int.tmod`.
* JavaScript arrays are `List`s; an in-range access `a[i]` is modelled as
  `List.getD i default` (all accesses that the theorems talk about are
  proven, or assumed via a length hypothesis, to be in range; an
  out-of-range JS access would crash, which is outside every claim's
  domain).
* `Math.random()` draws (used for the processId of spawned processes, for
  load placement jitter and for initial processIds) are modelled as
  explicitly supplied oracle inputs, since the source consults an external
  RNG there.
* React `useState` setters are modelled by pure state transformers on a
  `GameState` record that bundles exactly the state variables the
  component keeps (`core`, `warriors`, `activeProcessIndex`,
  `activeWarriorIndex`, `cycles`, `isRunning`).  UI-only state
  (`updatedAddresses` flash set, log strings, colors) is omitted; the
  "GAME OVER ... is the winner!" log line is reflected by the
  conjunction "roster has exactly one warrior and `isRunning` was set to
  `false`" in the theorems about termination.
* TypeScript string-union types (`OpCode`, `Mode`) are erased at runtime;
  the `switch`/`===` dispatch in the source compares strings, so `op`,
  `modeA`, `modeB` are modelled as `String` and the dispatch as string
  comparison, preserving the source's `default:` fall-through behavior.
-/

namespace CoreWar

/-- `const CORE_SIZE = 8100` -/
def CORE_SIZE : Int := 8100

/-- `const MAX_PROCESSES = 8000` -/
def MAX_PROCESSES : Nat := 8000

/-- `const DEFAULT_DAT_VALUE = 0` -/
def DEFAULT_DAT_VALUE : Int := 0

/-- `interface Instruction` of the source: owner id, opcode, addressing
modes and values of the A and B fields, and the (fixed) modifier.
`op`, `modeA`, `modeB` are strings, as at JS runtime. -/
structure Instruction where
  ownerId : Int
  op : String
  modeA : String
  valA : Int
  modeB : String
  valB : Int
  modifier : String
deriving DecidableEq, Repr

/-- `interface Process`: program counter plus the diagnostic processId
(a `Math.random()` draw in the source, modelled as an `Int`). -/
structure Process where
  pc : Int
  processId : Int
deriving DecidableEq, Repr

/-- `interface Warrior` -/
structure Warrior where
  id : Int
  name : String
  startAddr : Int
  processes : List Process
deriving DecidableEq, Repr

/-- The cell `resetCore`/`loadWarriors` fill the core with:
`{ ownerId: 0, op: 'DAT', modeA: 'IMMEDIATE', valA: 0, modeB: 'IMMEDIATE', valB: 0, modifier: 'I' }`. -/
def initialDat : Instruction :=
  { ownerId := 0, op := ("DAT"), modeA := ("IMMEDIATE"), valA := DEFAULT_DAT_VALUE,
    modeB := ("IMMEDIATE"), valB := DEFAULT_DAT_VALUE, modifier := ("I") }

/-- Fallback for modelled array reads (never reached by an in-range read). -/
def defaultProcess : Process := { pc := 0, processId := 0 }

/-- Fallback warrior for modelled array reads (never reached in range). -/
def defaultWarrior : Warrior := { id := 0, name := (""), startAddr := 0, processes := [] }

/-- `const mod = (n, m) => ((n % m) + m) % m` — JS `%` is truncating
remainder (`Int.tmod`); for `m > 0` the composite equals mathematical
modulo.  (For `m = 0` JS yields `NaN` while `Int.tmod n 0 = n`; the
simulator only reaches `m = 0` re-wrapping the active-warrior index after
the roster has emptied, where the index is no longer used, and no theorem
below states anything about that value.) -/
def mod (n m : Int) : Int := ((n.tmod m) + m).tmod m

/-- `getEffectiveAddress(pc, mode, value, core)` — the switch on the mode
string, with its `default:` branch. -/
def getEffectiveAddress (pc : Int) (mode : String) (value : Int) (core : List Instruction) : Int :=
  if mode = ("IMMEDIATE") then mod (pc + value) CORE_SIZE
  else if mode = ("DIRECT") then mod (pc + value) CORE_SIZE
  else if mode = ("INDIRECT_B") then
    let pointerAddr := mod (pc + value) CORE_SIZE
    mod (pc + (core.getD pointerAddr.toNat initialDat).valB) CORE_SIZE
  else if mode = ("PREDECREMENT_A") then mod (pc + value) CORE_SIZE
  else mod (pc + value) CORE_SIZE

/-- The inner helper `getVal(pc, mode, value, field)` of
`executeInstruction` (the `field` argument is the string `'A'` or `'B'`). -/
def getVal (core : List Instruction) (pc : Int) (mode : String) (value : Int)
    (field : String) : Int :=
  if mode = ("IMMEDIATE") then value
  else
    let addr := getEffectiveAddress pc mode value core
    let targetInstruction := core.getD addr.toNat initialDat
    if field = ("A") then targetInstruction.valA else targetInstruction.valB

/-- The record returned by `executeInstruction`. -/
structure ExecResult where
  newCore : List Instruction
  newProcesses : List Process
  processKilled : Bool
  nextPc : Int
  updatedAddresses : List Int
deriving DecidableEq, Repr

/-- `executeInstruction(core, warrior, process, processes, log)`.
The switch on `instruction.op` is sequential string comparison; the
`'NOP'` case and the `default:` case share the same (empty) body.  `rand`
is the `Math.random()` draw consumed if (and only if) an SPL spawns.  The
`log` callback only produces UI text and is omitted. -/
def executeInstruction (core : List Instruction) (warrior : Warrior) (process : Process)
    (processes : List Process) (rand : Int) : ExecResult :=
  let instruction := core.getD process.pc.toNat initialDat
  let newCore := core
  let newProcesses := processes
  let nextPc := mod (process.pc + 1) CORE_SIZE
  let addrA := getEffectiveAddress process.pc instruction.modeA instruction.valA core
  let addrB := getEffectiveAddress process.pc instruction.modeB instruction.valB core
  let valA := getVal core process.pc instruction.modeA instruction.valA ("A")
  if instruction.op = ("DAT") then
    { newCore := newCore, newProcesses := newProcesses, processKilled := true,
      nextPc := nextPc, updatedAddresses := [] }
  else if instruction.op = ("MOV") then
    if instruction.modeA = ("IMMEDIATE") then
      { newCore := newCore.set addrB.toNat
          { (newCore.getD addrB.toNat initialDat) with
            ownerId := warrior.id, valB := valA },
        newProcesses := newProcesses, processKilled := false,
        nextPc := nextPc, updatedAddresses := [addrB] }
    else
      { newCore := newCore.set addrB.toNat
          { (newCore.getD addrA.toNat initialDat) with ownerId := warrior.id },
        newProcesses := newProcesses, processKilled := false,
        nextPc := nextPc, updatedAddresses := [addrB] }
  else if instruction.op = ("ADD") then
    { newCore := newCore.set addrB.toNat
        { (newCore.getD addrB.toNat initialDat) with
          ownerId := warrior.id,
          valB := mod ((newCore.getD addrB.toNat initialDat).valB + valA) CORE_SIZE },
      newProcesses := newProcesses, processKilled := false,
      nextPc := nextPc, updatedAddresses := [addrB] }
  else if instruction.op = ("SUB") then
    { newCore := newCore.set addrB.toNat
        { (newCore.getD addrB.toNat initialDat) with
          ownerId := warrior.id,
          valB := mod ((newCore.getD addrB.toNat initialDat).valB - valA) CORE_SIZE },
      newProcesses := newProcesses, processKilled := false,
      nextPc := nextPc, updatedAddresses := [addrB] }
  else if instruction.op = ("JMP") then
    { newCore := newCore, newProcesses := newProcesses, processKilled := false,
      nextPc := mod (process.pc + instruction.valA) CORE_SIZE, updatedAddresses := [] }
  else if instruction.op = ("SPL") then
    let newProcessAddr := mod (process.pc + instruction.valA) CORE_SIZE
    if warrior.processes.length < MAX_PROCESSES then
      { newCore := newCore,
        newProcesses := newProcesses ++ [{ pc := newProcessAddr, processId := rand }],
        processKilled := false, nextPc := nextPc, updatedAddresses := [] }
    else
      { newCore := newCore, newProcesses := newProcesses, processKilled := false,
        nextPc := nextPc, updatedAddresses := [] }
  else
    { newCore := newCore, newProcesses := newProcesses, processKilled := false,
      nextPc := nextPc, updatedAddresses := [] }

/-! ### Arithmetic facts about `mod` -/

theorem tmod_lower_bound (n m : Int) (hm : 0 < m) : -m ≤ n.tmod m := by
  obtain ⟨mN, rfl⟩ : ∃ k : Nat, m = k := ⟨m.toNat, (Int.toNat_of_nonneg (le_of_lt hm)).symm⟩
  have hmN : 0 < mN := by exact_mod_cast hm
  cases n with
  | ofNat k =>
      have : 0 ≤ Int.tmod (Int.ofNat k) mN :=
        Int.tmod_nonneg _ (show (0:Int) ≤ (k : Int) by omega)
      omega
  | negSucc k =>
      have h : Int.tmod (Int.negSucc k) (mN : Int) = -(((k+1) % mN : Nat) : Int) := rfl
      have h2 : (k+1) % mN < mN := Nat.mod_lt _ hmN
      rw [h]
      omega

/-- For a positive modulus, the source's `mod` is mathematical modulo
(`Int.emod`), including on negative inputs. -/
theorem mod_eq_emod (n m : Int) (hm : 0 < m) : mod n m = n % m := by
  unfold mod
  have hlb : -m ≤ n.tmod m := tmod_lower_bound n m hm
  have h1 : (n.tmod m + m).tmod m = (n.tmod m + m) % m :=
    Int.tmod_eq_emod (by omega) (le_of_lt hm)
  have h2 : (n.tmod m + m) % m = n.tmod m % m := by
    have := Int.add_mul_emod_self_left (n.tmod m) m 1
    simp only [mul_one] at this
    exact this
  have h3 : n.tmod m % m = n % m := by
    have ht := Int.tmod_add_tdiv n m
    calc n.tmod m % m = (n.tmod m + m * n.tdiv m) % m := (Int.add_mul_emod_self_left _ _ _).symm
    _ = n % m := by rw [ht]
  rw [h1, h2, h3]

theorem mod_nonneg (n m : Int) (hm : 0 < m) : 0 ≤ mod n m := by
  rw [mod_eq_emod n m hm]; exact Int.emod_nonneg n (by omega)

theorem mod_lt (n m : Int) (hm : 0 < m) : mod n m < m := by
  rw [mod_eq_emod n m hm]; exact Int.emod_lt_of_pos n hm

theorem mod_eq_of_range (n m : Int) (h1 : 0 ≤ n) (h2 : n < m) : mod n m = n := by
  rw [mod_eq_emod n m (by omega)]; exact Int.emod_eq_of_lt h1 h2

theorem mod_add_cancel_left (x k m : Int) (hm : 0 < m) :
    mod (mod x m + k) m = mod (x + k) m := by
  rw [mod_eq_emod _ m hm, mod_eq_emod _ m hm, mod_eq_emod _ m hm, Int.add_emod,
    Int.emod_emod_of_dvd _ (dvd_refl m), ← Int.add_emod]

theorem CORE_SIZE_pos : (0:Int) < CORE_SIZE := by decide

theorem mod_core_nonneg (n : Int) : 0 ≤ mod n CORE_SIZE := mod_nonneg n _ CORE_SIZE_pos

theorem mod_core_lt (n : Int) : mod n CORE_SIZE < CORE_SIZE := mod_lt n _ CORE_SIZE_pos

/-- A `mod`-reduced address indexes a full-sized core in bounds. -/
theorem mod_core_toNat_lt (n : Int) (core : List Instruction)
    (hlen : core.length = 8100) : (mod n CORE_SIZE).toNat < core.length := by
  have h1 := mod_core_nonneg n
  have h2 := mod_core_lt n
  have : CORE_SIZE = 8100 := rfl
  omega

/-! ### Redcode parser

The source parses with JS string methods
(`trim`, `toUpperCase`, `split(';')[0]`, `split(/\s+/)`, `split(',')`,
`replace(',', '')`, `substring(1)`, `parseInt`).  These are modelled
character-wise on `List Char` (all warrior sources are ASCII text, where
`Char.toUpper` agrees with JS `toUpperCase`). -/

/-- Leading and trailing whitespace removal (JS `trim`). -/
def trimChars (cs : List Char) : List Char :=
  ((cs.dropWhile Char.isWhitespace).reverse.dropWhile Char.isWhitespace).reverse

/-- Split a character list at every occurrence of `sep` (JS `split(sep)`
for a single-character separator: always returns at least one piece, and
empty pieces are kept). -/
def splitOnChar (sep : Char) : List Char → List (List Char)
  | [] => [[]]
  | c :: rest =>
      if c = sep then [] :: splitOnChar sep rest
      else
        match splitOnChar sep rest with
        | [] => [[c]]
        | piece :: more => (c :: piece) :: more

/-- Split on runs of whitespace; together with the source's
`.filter(p => p.length > 0)` this models `split(/\s+/)` followed by that
filter (both drop exactly the empty pieces). -/
def splitWhitespace : List Char → List (List Char)
  | [] => [[]]
  | c :: rest =>
      if c.isWhitespace then [] :: splitWhitespace rest
      else
        match splitWhitespace rest with
        | [] => [[c]]
        | piece :: more => (c :: piece) :: more

/-- JS `fieldStr.replace(',', '')`: removes the first comma only. -/
def removeFirstComma : List Char → List Char
  | [] => []
  | c :: rest => if c = ',' then rest else c :: removeFirstComma rest

/-- Numeric value of a decimal digit run. -/
def decDigitsVal (ds : List Char) : Nat :=
  ds.foldl (fun acc d => acc * 10 + (d.toNat - ('0').toNat)) 0

/-- Hexadecimal digit test (JS `parseInt` consumes `0-9a-fA-F` after `0x`). -/
def isHexDigitChar (c : Char) : Bool :=
  c.isDigit || (('a' ≤ c) && (c ≤ 'f')) || (('A' ≤ c) && (c ≤ 'F'))

/-- Numeric value of one hexadecimal digit. -/
def hexDigitVal (c : Char) : Nat :=
  if c.isDigit then c.toNat - ('0').toNat
  else if ('a' ≤ c) && (c ≤ 'f') then c.toNat - ('a').toNat + 10
  else c.toNat - ('A').toNat + 10

/-- Numeric value of a hexadecimal digit run. -/
def hexDigitsVal (ds : List Char) : Nat :=
  ds.foldl (fun acc d => acc * 16 + hexDigitVal d) 0

/-- The unsigned part of JS `parseInt` with radix unspecified: a `0x`/`0X`
marker selects hexadecimal, otherwise the longest leading decimal digit
run is taken; no digits means `NaN` (`none`). -/
def jsParseIntUnsigned (cs : List Char) : Option Int :=
  match cs with
  | '0' :: x :: rest =>
      if x = 'x' ∨ x = 'X' then
        let ds := rest.takeWhile isHexDigitChar
        if ds.isEmpty then none else some (hexDigitsVal ds)
      else
        let ds := (('0' : Char) :: x :: rest).takeWhile Char.isDigit
        if ds.isEmpty then none else some (decDigitsVal ds)
  | _ =>
      let ds := cs.takeWhile Char.isDigit
      if ds.isEmpty then none else some (decDigitsVal ds)

/-- JS `parseInt(s)`: skip leading whitespace, optional sign, then the
unsigned part; `none` models `NaN`. -/
def jsParseInt (cs : List Char) : Option Int :=
  match cs.dropWhile Char.isWhitespace with
  | '-' :: rest => (jsParseIntUnsigned rest).map (fun v => -v)
  | '+' :: rest => jsParseIntUnsigned rest
  | rest => jsParseIntUnsigned rest

/-- The mode-and-value splitting step of the source's `parseField`: after
`replace(',', '').trim()`, a leading `#`, `@`, `<` or `$` selects the
mode and is stripped (`$` keeps `DIRECT`); no marker means `DIRECT`. -/
def fieldModeVal (cs : List Char) : String × List Char :=
  match cs with
  | '#' :: rest => (("IMMEDIATE"), rest)
  | '@' :: rest => (("INDIRECT_B"), rest)
  | '<' :: rest => (("PREDECREMENT_A"), rest)
  | '$' :: rest => (("DIRECT"), rest)
  | _ => (("DIRECT"), cs)

/-- `parseField` of the source: returns the mode string and the value,
where `parseInt(valStr) || 0` turns a failed numeric parse (`NaN`) into
`0` (the other falsy outcome of `parseInt` is `0` itself, so
`Option.getD 0` is exact). -/
def parseField (fieldStr : List Char) : String × Int :=
  let valStr := trimChars (removeFirstComma fieldStr)
  let (mode, valStr) := fieldModeVal valStr
  (mode, (jsParseInt valStr).getD 0)

/-- The seven recognized opcodes. -/
def opcodeStrings : List String :=
  [("DAT"), ("MOV"), ("ADD"), ("SUB"), ("JMP"), ("SPL"), ("NOP")]

/-- `line.trim().toUpperCase().split(';')[0].split(/\s+/).filter(p => p.length > 0)`. -/
def tokenize (line : String) : List String :=
  let cs := (trimChars line.data).map Char.toUpper
  let beforeComment := (splitOnChar ';' cs).headD []
  ((splitWhitespace beforeComment).filter (fun t => !t.isEmpty)).map (fun t => String.mk t)

/-- `parseRedcodeLine(line, ownerId)`: `none` models the source's `null`
parse-error result.  Operand handling: tokens after the opcode are
rejoined with single spaces and split on every comma; a missing or empty
(falsy) field keeps the default `{mode: DIRECT, value: 0}`. -/
def parseRedcodeLine (line : String) (ownerId : Int) : Option Instruction :=
  match tokenize line with
  | [] => none
  | op :: rest =>
    if op ∈ opcodeStrings then
      let (fieldA, fieldB) :=
        if rest.isEmpty then ((("DIRECT"), (0:Int)), (("DIRECT"), (0:Int)))
        else
          let operands := List.intercalate [' '] (rest.map String.data)
          let fields := splitOnChar ',' operands
          let fA := match fields.getD 0 [] with
            | [] => (("DIRECT"), (0:Int))
            | f => parseField f
          let fB := match fields.getD 1 [] with
            | [] => (("DIRECT"), (0:Int))
            | f => parseField f
          (fA, fB)
      some { ownerId := ownerId, op := op, modeA := fieldA.1, valA := fieldA.2,
             modeB := fieldB.1, valB := fieldB.2, modifier := ("I") }
    else none

/-! ### Game state, reset, loader, scheduler -/

/-- The simulation state variables of the component:
`core`, `warriors`, `activeProcessIndex`, `activeWarriorIndex`, `cycles`,
`isRunning`.  (UI-only state is omitted; see the header comment.) -/
structure GameState where
  core : List Instruction
  warriors : List Warrior
  activeProcessIndex : Int
  activeWarriorIndex : Int
  cycles : Nat
  isRunning : Bool
deriving DecidableEq, Repr

/-- The all-neutral core built by `resetCore` and at the start of
`loadWarriors`: `CORE_SIZE` copies of the default DAT cell. -/
def emptyCore : List Instruction := List.replicate 8100 initialDat

/-- `resetCore`: empty core, no warriors, zeroed indices and cycle count,
not running. -/
def resetCore (_st : GameState) : GameState :=
  { core := emptyCore, warriors := [], activeProcessIndex := 0,
    activeWarriorIndex := 0, cycles := 0, isRunning := false }

/-- The component's initial state (`useState([])` for core and warriors). -/
def initState : GameState :=
  { core := [], warriors := [], activeProcessIndex := 0,
    activeWarriorIndex := 0, cycles := 0, isRunning := false }

/-- `interface WarriorDefinition` (the display color is presentation-only
and omitted). -/
structure WarriorDefinition where
  id : Int
  name : String
  redcode : String
deriving DecidableEq, Repr

/-- `calculateWarriorPositions(numWarriors)`: evenly spaced starts with
random jitter.  `randomOffsets` supplies the values
`Math.floor(Math.random() * (minSeparation / 4))` drawn per warrior. -/
def calculateWarriorPositions (numWarriors : Nat) (randomOffsets : List Int) : List Int :=
  let minSeparation : Int := CORE_SIZE / numWarriors
  (List.range numWarriors).map
    (fun (i : Nat) => mod ((i : Int) * minSeparation + randomOffsets.getD i 0) CORE_SIZE)

/-- The line filtering of `loadWarriors`:
`def.redcode.split('\n').map(trim).filter(l => l.length > 0 && !l.startsWith(';'))`. -/
def warriorLines (redcode : String) : List (List Char) :=
  ((splitOnChar '\n' redcode.data).map trimChars).filter
    (fun l => !l.isEmpty && !(l.headD ' ' = ';'))

/-- The per-warrior parse loop of `loadWarriors`: parses lines in order,
failing on the first line that does not parse. -/
def parseProgram (lines : List (List Char)) (ownerId : Int) : Option (List Instruction) :=
  match lines with
  | [] => some []
  | l :: rest =>
      match parseRedcodeLine (String.mk l) ownerId with
      | none => none
      | some instruction => (parseProgram rest ownerId).map (fun is => instruction :: is)

/-- Copying one warrior's instructions into the core at consecutive
(wrapped) addresses from `startAddr`. -/
def writeInstructions (core : List Instruction) (startAddr : Int)
    (instrs : List Instruction) : List Instruction :=
  instrs.enum.foldl
    (fun c p => c.set (mod (startAddr + (p.1 : Int)) CORE_SIZE).toNat p.2) core

/-- The main loop of `loadWarriors` over the warrior definitions: parse
each definition fully (aborting everything on the first failure), write
its instructions into the core being built, and create its single initial
process at its start address.  `procIds` supplies the `Math.random()`
processId draws. -/
def loadLoop (defs : List WarriorDefinition) (positions : List Int) (procIds : List Int)
    (w : Nat) (core : List Instruction) : Option (List Instruction × List Warrior) :=
  match defs with
  | [] => some (core, [])
  | d :: rest =>
      match parseProgram (warriorLines d.redcode) d.id with
      | none => none
      | some instructions =>
          let startAddr := positions.getD w 0
          let core := writeInstructions core startAddr instructions
          let newWarrior : Warrior :=
            { id := d.id, name := d.name, startAddr := startAddr,
              processes := [{ pc := startAddr, processId := procIds.getD w 0 }] }
          (loadLoop rest positions procIds (w + 1) core).map
            (fun r => (r.1, newWarrior :: r.2))

/-- `loadWarriors`: first calls `resetCore()` (whose state updates are
committed even if the load subsequently fails), then builds a fresh local
core and roster; on any parse error it returns with only the reset
committed, otherwise it additionally commits the built core and roster. -/
def loadWarriors (defs : List WarriorDefinition) (randomOffsets : List Int)
    (procIds : List Int) (prev : GameState) : GameState :=
  let afterReset := resetCore prev
  let positions := calculateWarriorPositions defs.length randomOffsets
  match loadLoop defs positions procIds 0 emptyCore with
  | none => afterReset
  | some r => { afterReset with core := r.1, warriors := r.2 }

/-- `runCycle`: one scheduling cycle.  `rand` is the `Math.random()` draw
used if the executed instruction is a spawning SPL.  JS object aliasing
(`currentProcess.pc = nextPc` mutating the element inside the engine's
returned list, and the in-place `splice` on the selected warrior's
process list) is rendered by the corresponding pure list updates. -/
def runCycle (rand : Int) (st : GameState) : GameState :=
  if st.warriors.length = 0 then st
  else
    let currentWarriorIndex := (mod st.activeWarriorIndex st.warriors.length).toNat
    let currentWarrior := st.warriors.getD currentWarriorIndex defaultWarrior
    if currentWarrior.processes.length = 0 then
      let newWarriors := st.warriors.eraseIdx currentWarriorIndex
      { st with
        warriors := newWarriors,
        activeWarriorIndex := mod st.activeWarriorIndex (newWarriors.length : Int),
        isRunning := if newWarriors.length ≤ 1 then false else st.isRunning }
    else
      let currentProcessIndex :=
        (mod st.activeProcessIndex currentWarrior.processes.length).toNat
      let currentProcess := currentWarrior.processes.getD currentProcessIndex defaultProcess
      let r := executeInstruction st.core currentWarrior currentProcess
        currentWarrior.processes rand
      let updatedWarrior :=
        if r.processKilled then
          { currentWarrior with
            processes := currentWarrior.processes.eraseIdx currentProcessIndex }
        else
          { currentWarrior with
            processes := r.newProcesses.set currentProcessIndex
              { currentProcess with pc := r.nextPc } }
      let newWarriors := st.warriors.set currentWarriorIndex updatedWarrior
      { st with
        core := r.newCore,
        warriors := newWarriors,
        activeProcessIndex :=
          if r.processKilled then st.activeProcessIndex
          else mod ((currentProcessIndex : Int) + 1) (updatedWarrior.processes.length : Int),
        activeWarriorIndex := mod (st.activeWarriorIndex + 1) (newWarriors.length : Int),
        cycles := st.cycles + 1 }

/-- Iterated stepping: `runCycles rands n st` performs `n` scheduling
cycles, the `k`-th consuming the draw `rands k`. -/
def runCycles (rands : Nat → Int) : Nat → GameState → GameState
  | 0, st => st
  | n + 1, st => runCycle (rands n) (runCycles rands n st)

/-! ### Shared helper lemmas -/

theorem getVal_immediate (core : List Instruction) (pc v : Int) (f : String) :
    getVal core pc ("IMMEDIATE") v f = v := rfl

theorem getD_set_of_ne {α : Type} (l : List α) (i : Nat) (x : α) (j : Nat) (d : α)
    (h : j ≠ i) : (l.set i x).getD j d = l.getD j d := by
  simp [List.getD_eq_getElem?_getD, List.getElem?_set_ne (by omega : i ≠ j)]

theorem emptyCore_length : emptyCore.length = 8100 := List.length_replicate 8100 initialDat

/-! ### Concrete fixtures used by witnesses and counterexamples -/

/-- The parsed form of the Imp line `MOV 0, 1` owned by warrior 1. -/
def impInstr : Instruction :=
  { ownerId := 1, op := ("MOV"), modeA := ("DIRECT"), valA := 0,
    modeB := ("DIRECT"), valB := 1, modifier := ("I") }

/-- The parsed form of `SPL 2` owned by warrior 3. -/
def splInstr : Instruction :=
  { ownerId := 3, op := ("SPL"), modeA := ("DIRECT"), valA := 2,
    modeB := ("DIRECT"), valB := 0, modifier := ("I") }

/-- A cell whose opcode is outside the recognized set. -/
def unknownInstr : Instruction :=
  { ownerId := 1, op := ("XYZ"), modeA := ("DIRECT"), valA := 0,
    modeB := ("DIRECT"), valB := 0, modifier := ("I") }

def demoProcess : Process := { pc := 0, processId := 7 }

def impCore : List Instruction := emptyCore.set 0 impInstr

def impWarrior : Warrior :=
  { id := 1, name := ("The Imp"), startAddr := 0, processes := [demoProcess] }

def splCore : List Instruction := emptyCore.set 0 splInstr

def splWarrior : Warrior :=
  { id := 3, name := ("S"), startAddr := 0, processes := [demoProcess] }

def unknownCore : List Instruction := emptyCore.set 0 unknownInstr

/-! ### C2 — address resolution -/

/-- C2: for every program counter, mode string, value (negative included)
and core of length `CORE_SIZE`, `getEffectiveAddress` lands in
`[0, CORE_SIZE)` and agrees with the mathematical reference definition:
`(pc + value) mod CORE_SIZE` for IMMEDIATE, DIRECT and the pre-decrement
placeholder (and any other mode string, via the `default` branch), and
`(pc + core[(pc + value) mod CORE_SIZE].valB) mod CORE_SIZE` for
INDIRECT_B, the outer addition being relative to `pc`; in particular
`getEffectiveAddress 0 DIRECT (-1) core = CORE_SIZE - 1`. -/
theorem effectiveAddress_range_and_reference (pc v : Int) (core : List Instruction)
    (_hlen : core.length = 8100) :
    (∀ mode : String, 0 ≤ getEffectiveAddress pc mode v core ∧
      getEffectiveAddress pc mode v core < CORE_SIZE)
    ∧ getEffectiveAddress pc ("IMMEDIATE") v core = (pc + v) % CORE_SIZE
    ∧ getEffectiveAddress pc ("DIRECT") v core = (pc + v) % CORE_SIZE
    ∧ getEffectiveAddress pc ("PREDECREMENT_A") v core = (pc + v) % CORE_SIZE
    ∧ getEffectiveAddress pc ("INDIRECT_B") v core =
        (pc + (core.getD ((pc + v) % CORE_SIZE).toNat initialDat).valB) % CORE_SIZE
    ∧ getEffectiveAddress 0 ("DIRECT") (-1) core = CORE_SIZE - 1 := by
  refine ⟨?_, ?_, ?_, ?_, ?_, ?_⟩
  · intro mode
    unfold getEffectiveAddress
    split_ifs <;> exact ⟨mod_core_nonneg _, mod_core_lt _⟩
  · show mod (pc + v) CORE_SIZE = _
    exact mod_eq_emod _ _ CORE_SIZE_pos
  · show mod (pc + v) CORE_SIZE = _
    exact mod_eq_emod _ _ CORE_SIZE_pos
  · show mod (pc + v) CORE_SIZE = _
    exact mod_eq_emod _ _ CORE_SIZE_pos
  · show mod (pc + (core.getD (mod (pc + v) CORE_SIZE).toNat initialDat).valB) CORE_SIZE = _
    rw [mod_eq_emod _ _ CORE_SIZE_pos, mod_eq_emod _ _ CORE_SIZE_pos]
  · show mod (0 + -1) CORE_SIZE = CORE_SIZE - 1
    decide

/-- Witness for C2 at `pc = 0`, `value = -1` on the all-DAT core. -/
theorem effectiveAddress_range_and_reference_witness :
    getEffectiveAddress 0 ("DIRECT") (-1) emptyCore = CORE_SIZE - 1 :=
  (effectiveAddress_range_and_reference 0 (-1) emptyCore emptyCore_length).2.2.2.2.2

/-! ### C5 — MOV frame effect -/

/-- C5: a MOV whose A-field mode is IMMEDIATE overwrites only the `valB`
component of the destination cell (with the immediate value) and its
owner, keeping opcode, both modes, `valA` and the modifier; a MOV with
any other A-field mode replaces the whole destination cell with a copy of
the source cell, owner reassigned; and in both cases no cell other than
the destination `addrB` changes (and the core length is preserved). -/
theorem mov_writes_only_destination (core : List Instruction) (w : Warrior) (p : Process)
    (ps : List Process) (rand : Int)
    (hop : (core.getD p.pc.toNat initialDat).op = ("MOV")) :
    ((core.getD p.pc.toNat initialDat).modeA = ("IMMEDIATE") →
      (executeInstruction core w p ps rand).newCore =
        core.set (getEffectiveAddress p.pc (core.getD p.pc.toNat initialDat).modeB
            (core.getD p.pc.toNat initialDat).valB core).toNat
          { (core.getD (getEffectiveAddress p.pc (core.getD p.pc.toNat initialDat).modeB
              (core.getD p.pc.toNat initialDat).valB core).toNat initialDat) with
            ownerId := w.id, valB := (core.getD p.pc.toNat initialDat).valA })
    ∧ ((core.getD p.pc.toNat initialDat).modeA ≠ ("IMMEDIATE") →
      (executeInstruction core w p ps rand).newCore =
        core.set (getEffectiveAddress p.pc (core.getD p.pc.toNat initialDat).modeB
            (core.getD p.pc.toNat initialDat).valB core).toNat
          { (core.getD (getEffectiveAddress p.pc (core.getD p.pc.toNat initialDat).modeA
              (core.getD p.pc.toNat initialDat).valA core).toNat initialDat) with
            ownerId := w.id })
    ∧ (∀ j : Nat, j ≠ (getEffectiveAddress p.pc (core.getD p.pc.toNat initialDat).modeB
          (core.getD p.pc.toNat initialDat).valB core).toNat →
        (executeInstruction core w p ps rand).newCore.getD j initialDat =
          core.getD j initialDat)
    ∧ (executeInstruction core w p ps rand).newCore.length = core.length := by
  have hA : (core.getD p.pc.toNat initialDat).modeA = ("IMMEDIATE") →
      (executeInstruction core w p ps rand).newCore =
        core.set (getEffectiveAddress p.pc (core.getD p.pc.toNat initialDat).modeB
            (core.getD p.pc.toNat initialDat).valB core).toNat
          { (core.getD (getEffectiveAddress p.pc (core.getD p.pc.toNat initialDat).modeB
              (core.getD p.pc.toNat initialDat).valB core).toNat initialDat) with
            ownerId := w.id, valB := (core.getD p.pc.toNat initialDat).valA } := by
    intro hm
    simp +decide only [executeInstruction, hop, hm, getVal_immediate, if_true, if_false]
  have hB : (core.getD p.pc.toNat initialDat).modeA ≠ ("IMMEDIATE") →
      (executeInstruction core w p ps rand).newCore =
        core.set (getEffectiveAddress p.pc (core.getD p.pc.toNat initialDat).modeB
            (core.getD p.pc.toNat initialDat).valB core).toNat
          { (core.getD (getEffectiveAddress p.pc (core.getD p.pc.toNat initialDat).modeA
              (core.getD p.pc.toNat initialDat).valA core).toNat initialDat) with
            ownerId := w.id } := by
    intro hm
    simp +decide only [executeInstruction, hop, if_true, if_false]
    rw [if_neg hm]
  refine ⟨hA, hB, ?_, ?_⟩
  · intro j hj
    by_cases hm : (core.getD p.pc.toNat initialDat).modeA = ("IMMEDIATE")
    · rw [hA hm]; exact getD_set_of_ne _ _ _ _ _ hj
    · rw [hB hm]; exact getD_set_of_ne _ _ _ _ _ hj
  · by_cases hm : (core.getD p.pc.toNat initialDat).modeA = ("IMMEDIATE")
    · rw [hA hm]; exact List.length_set _ _ _
    · rw [hB hm]; exact List.length_set _ _ _

/-- Witness for C5: the Imp instruction at cell 0 (a non-immediate MOV)
replicates itself into cell 1. -/
theorem mov_writes_only_destination_witness :
    (executeInstruction impCore impWarrior demoProcess [demoProcess] 0).newCore =
      impCore.set (getEffectiveAddress demoProcess.pc
          (impCore.getD demoProcess.pc.toNat initialDat).modeB
          (impCore.getD demoProcess.pc.toNat initialDat).valB impCore).toNat
        { (impCore.getD (getEffectiveAddress demoProcess.pc
            (impCore.getD demoProcess.pc.toNat initialDat).modeA
            (impCore.getD demoProcess.pc.toNat initialDat).valA impCore).toNat initialDat) with
          ownerId := impWarrior.id } :=
  (mov_writes_only_destination impCore impWarrior demoProcess [demoProcess] 0
    (by decide)).2.1 (by decide)

/-! ### C6 — SPL -/

/-- C6: SPL computes its target as `(pc + valA) mod CORE_SIZE` from the
raw A-field value (not through `getEffectiveAddress`); when the warrior's
live process count is below `MAX_PROCESSES` the returned list is the old
list with exactly one new process at the target appended at the end
(its processId being the RNG draw), and at the cap the list is returned
unchanged; in both cases the executing process is not killed, no core
cell is written, no address is reported touched, and the next program
counter is `(pc + 1) mod CORE_SIZE`. -/
theorem spl_semantics (core : List Instruction) (w : Warrior) (p : Process)
    (ps : List Process) (rand : Int)
    (hop : (core.getD p.pc.toNat initialDat).op = ("SPL")) :
    (w.processes.length < MAX_PROCESSES →
      (executeInstruction core w p ps rand).newProcesses =
        ps ++ [{ pc := mod (p.pc + (core.getD p.pc.toNat initialDat).valA) CORE_SIZE,
                 processId := rand }])
    ∧ (¬ w.processes.length < MAX_PROCESSES →
      (executeInstruction core w p ps rand).newProcesses = ps)
    ∧ (executeInstruction core w p ps rand).processKilled = false
    ∧ (executeInstruction core w p ps rand).newCore = core
    ∧ (executeInstruction core w p ps rand).updatedAddresses = []
    ∧ (executeInstruction core w p ps rand).nextPc = mod (p.pc + 1) CORE_SIZE := by
  simp only [executeInstruction, hop]
  by_cases hc : w.processes.length < MAX_PROCESSES <;> simp +decide [hc]

/-- Witness for C6: `SPL 2` at cell 0 with one live process spawns a
second process at address 2 appended after the existing one. -/
theorem spl_semantics_witness :
    (executeInstruction splCore splWarrior demoProcess [demoProcess] 5).newProcesses =
      [demoProcess] ++
        [{ pc := mod (demoProcess.pc + (splCore.getD demoProcess.pc.toNat initialDat).valA)
             CORE_SIZE, processId := 5 }] :=
  (spl_semantics splCore splWarrior demoProcess [demoProcess] 5 (by decide)).1 (by decide)

/-! ### C7 — totality / unknown opcodes -/

/-- C7: the engine is a total function (it is a Lean `def`, defined for
every core, process and stored instruction), and any instruction whose
opcode is outside the recognized dispatch set — which includes `NOP`
itself and every unrecognized opcode string, both landing in the shared
`NOP`/`default` fall-through — leaves the core and process list
untouched, kills nothing, reports no touched address, and advances the
program counter to `(pc + 1) mod CORE_SIZE`. -/
theorem unknown_opcode_acts_as_nop (core : List Instruction) (w : Warrior) (p : Process)
    (ps : List Process) (rand : Int)
    (hop : (core.getD p.pc.toNat initialDat).op ∉
      [("DAT"), ("MOV"), ("ADD"), ("SUB"), ("JMP"), ("SPL")]) :
    executeInstruction core w p ps rand =
      { newCore := core, newProcesses := ps, processKilled := false,
        nextPc := mod (p.pc + 1) CORE_SIZE, updatedAddresses := [] } := by
  simp only [List.mem_cons, List.mem_singleton, not_or] at hop
  obtain ⟨h1, h2, h3, h4, h5, h6, -⟩ := hop
  simp only [executeInstruction]
  rw [if_neg h1, if_neg h2, if_neg h3, if_neg h4, if_neg h5, if_neg h6]

/-- Witness for C7: a cell holding the opcode `XYZ` steps like a NOP. -/
theorem unknown_opcode_acts_as_nop_witness :
    executeInstruction unknownCore impWarrior demoProcess [demoProcess] 0 =
      { newCore := unknownCore, newProcesses := [demoProcess], processKilled := false,
        nextPc := mod (demoProcess.pc + 1) CORE_SIZE, updatedAddresses := [] } :=
  unknown_opcode_acts_as_nop unknownCore impWarrior demoProcess [demoProcess] 0 (by decide)

/-! ### C8 — determinism of the step function -/

/-- C8 (amended): `executeInstruction` consults the external RNG only for
the `processId` of an SPL-spawned process; on identical core, warrior,
process and process list, any two invocations agree on the new core, the
killed flag, the next program counter, the touched addresses, and the
program counters and count of the returned process list — everything
except possibly the diagnostic `processId` of a spawned process. -/
theorem exec_deterministic_up_to_processId (core : List Instruction) (w : Warrior)
    (p : Process) (ps : List Process) (r1 r2 : Int) :
    (executeInstruction core w p ps r1).newCore = (executeInstruction core w p ps r2).newCore
    ∧ (executeInstruction core w p ps r1).processKilled =
        (executeInstruction core w p ps r2).processKilled
    ∧ (executeInstruction core w p ps r1).nextPc = (executeInstruction core w p ps r2).nextPc
    ∧ (executeInstruction core w p ps r1).updatedAddresses =
        (executeInstruction core w p ps r2).updatedAddresses
    ∧ (executeInstruction core w p ps r1).newProcesses.map Process.pc =
        (executeInstruction core w p ps r2).newProcesses.map Process.pc
    ∧ (executeInstruction core w p ps r1).newProcesses.length =
        (executeInstruction core w p ps r2).newProcesses.length := by
  simp only [executeInstruction]
  split_ifs <;> refine ⟨rfl, rfl, rfl, rfl, ?_, ?_⟩ <;> simp

/-- Counterexample to C8 as stated: executing the same SPL from the same
core, warrior, process and process list returns different process lists
for different `Math.random()` draws (the spawned processId differs), so
the step is not a pure function of the four listed inputs alone. -/
theorem exec_depends_on_rng_counterexample :
    (executeInstruction splCore splWarrior demoProcess [demoProcess] 0).newProcesses ≠
      (executeInstruction splCore splWarrior demoProcess [demoProcess] 1).newProcesses := by
  decide

/-! ### C9 — parser failure conditions -/

/-- C9: a line fails to parse exactly when it is empty after comment
stripping and whitespace tokenization, or its first token is not one of
the seven recognized opcodes; operand fields never cause failure — with
only an opcode present both fields default to `DIRECT 0`, and a field
whose numeric part does not parse as an integer gets value `0` instead of
an error. -/
theorem parse_line_failure_iff (line : String) (oid : Int) :
    (parseRedcodeLine line oid = none ↔
      (tokenize line = [] ∨ ¬ (tokenize line).headD ("") ∈ opcodeStrings))
    ∧ (∀ op : String, tokenize line = [op] → op ∈ opcodeStrings →
        parseRedcodeLine line oid =
          some { ownerId := oid, op := op, modeA := ("DIRECT"), valA := 0,
                 modeB := ("DIRECT"), valB := 0, modifier := ("I") })
    ∧ (∀ cs : List Char,
        jsParseInt (fieldModeVal (trimChars (removeFirstComma cs))).2 = none →
        (parseField cs).2 = 0) := by
  refine ⟨?_, ?_, ?_⟩
  · cases h : tokenize line with
    | nil => simp [parseRedcodeLine, h]
    | cons op rest =>
        by_cases hmem : op ∈ opcodeStrings
        · simp [parseRedcodeLine, h, hmem]
        · simp [parseRedcodeLine, h, hmem]
  · intro op h hmem
    simp [parseRedcodeLine, h, hmem]
  · intro cs h
    simp [parseField, h]

/-- Witness for C9: the bare line `MOV` parses with both fields defaulted
to `DIRECT 0`. -/
theorem parse_line_failure_iff_witness :
    parseRedcodeLine ("MOV") 4 =
      some { ownerId := 4, op := ("MOV"), modeA := ("DIRECT"), valA := 0,
             modeB := ("DIRECT"), valB := 0, modifier := ("I") } :=
  (parse_line_failure_iff ("MOV") 4).2.1 ("MOV") (by decide) (by decide)

/-! ### C3 — elimination cycles -/

/-- A roster entry with no processes, used by the C3 witness. -/
def emptyWarrior : Warrior := { id := 2, name := ("E"), startAddr := 0, processes := [] }

/-- A state whose scheduled warrior has zero processes (C3 witness). -/
def demoElimState : GameState :=
  { core := emptyCore, warriors := [emptyWarrior, impWarrior], activeProcessIndex := 0,
    activeWarriorIndex := 0, cycles := 5, isRunning := true }

/-- C3: when the scheduled warrior has zero processes, `runCycle` removes
exactly that warrior from the roster, executes no instruction (core and
cycle counter unchanged), re-wraps the active-warrior index modulo the
new roster size (stated for a non-empty remainder; with an empty
remainder JS computes `mod` by zero, i.e. `NaN`, and the index is never
used again), and evaluates termination: one warrior left — that sole
survivor is the declared winner and the run stops; zero left — a draw,
and the run also stops. -/
theorem runCycle_eliminates_empty_warrior (st : GameState) (rand : Int)
    (hne : 0 < st.warriors.length)
    (hzero : (st.warriors.getD (mod st.activeWarriorIndex st.warriors.length).toNat
        defaultWarrior).processes = []) :
    (runCycle rand st).core = st.core
    ∧ (runCycle rand st).cycles = st.cycles
    ∧ (runCycle rand st).warriors =
        st.warriors.eraseIdx (mod st.activeWarriorIndex st.warriors.length).toNat
    ∧ (runCycle rand st).warriors.length = st.warriors.length - 1
    ∧ (0 < (runCycle rand st).warriors.length →
        (runCycle rand st).activeWarriorIndex =
          mod st.activeWarriorIndex ((runCycle rand st).warriors.length : Int))
    ∧ ((runCycle rand st).warriors.length = 1 → (runCycle rand st).isRunning = false)
    ∧ ((runCycle rand st).warriors.length = 0 → (runCycle rand st).isRunning = false) := by
  have hcwi : (mod st.activeWarriorIndex st.warriors.length).toNat < st.warriors.length := by
    have h1 := mod_nonneg st.activeWarriorIndex st.warriors.length (by exact_mod_cast hne)
    have h2 := mod_lt st.activeWarriorIndex st.warriors.length (by exact_mod_cast hne)
    omega
  have hlen0 : ¬ st.warriors.length = 0 := by omega
  have hp0 : (st.warriors.getD (mod st.activeWarriorIndex st.warriors.length).toNat
      defaultWarrior).processes.length = 0 := by rw [hzero]; rfl
  have herase : (st.warriors.eraseIdx
      (mod st.activeWarriorIndex st.warriors.length).toNat).length =
      st.warriors.length - 1 := by
    rw [List.length_eraseIdx]
    simp [hcwi]
  have hrc : runCycle rand st =
      { core := st.core,
        warriors := st.warriors.eraseIdx (mod st.activeWarriorIndex st.warriors.length).toNat,
        activeProcessIndex := st.activeProcessIndex,
        activeWarriorIndex := mod st.activeWarriorIndex
          ((st.warriors.eraseIdx
            (mod st.activeWarriorIndex st.warriors.length).toNat).length : Int),
        cycles := st.cycles,
        isRunning :=
          if (st.warriors.eraseIdx
              (mod st.activeWarriorIndex st.warriors.length).toNat).length ≤ 1 then false
          else st.isRunning } := by
    simp only [runCycle, hlen0, if_false, hp0, eq_self_iff_true, if_true]
  rw [hrc]
  refine ⟨rfl, rfl, rfl, herase, fun _ => rfl, ?_, ?_⟩
  · intro h1
    simp only at h1 ⊢
    rw [if_pos (le_of_eq h1)]
  · intro h0
    simp only at h0 ⊢
    rw [if_pos (by omega : (st.warriors.eraseIdx
      (mod st.activeWarriorIndex st.warriors.length).toNat).length ≤ 1)]

/-- Witness for C3 at a concrete two-warrior state whose scheduled
warrior has no processes. -/
theorem runCycle_eliminates_empty_warrior_witness :
    (runCycle 0 demoElimState).warriors =
      demoElimState.warriors.eraseIdx
        (mod demoElimState.activeWarriorIndex demoElimState.warriors.length).toNat :=
  (runCycle_eliminates_empty_warrior demoElimState 0 (by decide) (by decide)).2.2.1

/-! ### C1 — load failure behavior -/

/-- A warrior definition whose single line fails to parse. -/
def badDef : WarriorDefinition := { id := 9, name := ("B"), redcode := ("FOO") }

/-- A pre-load state with a non-trivial core and a non-empty roster. -/
def demoPrevState : GameState :=
  { core := impCore, warriors := [impWarrior], activeProcessIndex := 3,
    activeWarriorIndex := 4, cycles := 5, isRunning := true }

/-- Counterexample to C1 as stated: loading a definition whose source
fails to parse does abort without committing any warrior instructions or
any partial roster, but it does NOT leave the pre-load state
observationally unchanged — `loadWarriors` calls `resetCore()` first and
that reset is committed, so the pre-load core contents (cell 0 here) and
the pre-load roster are both wiped. -/
theorem loadWarriors_not_transactional_counterexample :
    parseProgram (warriorLines badDef.redcode) badDef.id = none
    ∧ (loadWarriors [badDef] [0] [0] demoPrevState).warriors = []
    ∧ demoPrevState.warriors ≠ []
    ∧ (loadWarriors [badDef] [0] [0] demoPrevState).core.getD 0 initialDat ≠
        demoPrevState.core.getD 0 initialDat := by
  refine ⟨by decide, by decide, by decide, by decide⟩

/-- C1 (amended): if any line of any warrior's source fails to parse, the
whole load aborts with no warrior instructions written and no partial
roster committed — but the state it leaves behind is the committed
`resetCore` state (all-neutral core, empty roster, zeroed indices and
counters), not the pre-load state, which is wiped by the reset that
`loadWarriors` performs first. -/
theorem loadWarriors_failure_commits_reset (defs : List WarriorDefinition)
    (randomOffsets procIds : List Int) (prev : GameState)
    (hfail : ∃ d ∈ defs, parseProgram (warriorLines d.redcode) d.id = none) :
    loadWarriors defs randomOffsets procIds prev = resetCore prev
    ∧ (loadWarriors defs randomOffsets procIds prev).core = emptyCore
    ∧ (loadWarriors defs randomOffsets procIds prev).warriors = [] := by
  have hnone : ∀ (ds : List WarriorDefinition) (positions procIds : List Int)
      (w : Nat) (core : List Instruction),
      (∃ d ∈ ds, parseProgram (warriorLines d.redcode) d.id = none) →
      loadLoop ds positions procIds w core = none := by
    intro ds positions procIds
    induction ds with
    | nil =>
        rintro w core ⟨d, hd, -⟩
        cases hd
    | cons d rest ih =>
        rintro w core ⟨e, he, hp⟩
        rcases List.mem_cons.mp he with rfl | hrest
        · simp [loadLoop, hp]
        · simp only [loadLoop]
          cases hpd : parseProgram (warriorLines d.redcode) d.id with
          | none => rfl
          | some instrs =>
              simp only [Option.map_eq_none']
              exact ih _ _ ⟨e, hrest, hp⟩
  have h := hnone defs (calculateWarriorPositions defs.length randomOffsets) procIds 0
    emptyCore hfail
  have hmain : loadWarriors defs randomOffsets procIds prev = resetCore prev := by
    simp only [loadWarriors]
    rw [h]
  exact ⟨hmain, by rw [hmain]; rfl, by rw [hmain]; rfl⟩

/-- Witness for C1 (amended) at the concrete failing definition. -/
theorem loadWarriors_failure_commits_reset_witness :
    loadWarriors [badDef] [0] [0] demoPrevState = resetCore demoPrevState :=
  (loadWarriors_failure_commits_reset [badDef] [0] [0] demoPrevState
    ⟨badDef, by simp, by decide⟩).1

/-! ### C10 — program counters stay in range -/

/-- Every live process of every warrior in the roster has its program
counter inside `[0, CORE_SIZE)`. -/
def pcInRange (st : GameState) : Prop :=
  ∀ w ∈ st.warriors, ∀ p ∈ w.processes, 0 ≤ p.pc ∧ p.pc < CORE_SIZE

theorem getD_prop {α : Type} (P : α → Prop) (l : List α) (d : α) (i : Nat)
    (hl : ∀ x ∈ l, P x) (hd : P d) : P (l.getD i d) := by
  by_cases h : i < l.length
  · rw [List.getD_eq_getElem l d h]
    exact hl _ (List.getElem_mem h)
  · rw [List.getD_eq_default l d (by omega)]
    exact hd

/-- Every `nextPc` the engine returns is `mod`-reduced, hence in range. -/
theorem exec_nextPc_range (core : List Instruction) (w : Warrior) (p : Process)
    (ps : List Process) (rand : Int) :
    0 ≤ (executeInstruction core w p ps rand).nextPc ∧
      (executeInstruction core w p ps rand).nextPc < CORE_SIZE := by
  simp only [executeInstruction]
  split_ifs <;> exact ⟨mod_core_nonneg _, mod_core_lt _⟩

/-- Every process the engine returns either was in the input list or is a
fresh SPL spawn whose address is `mod`-reduced, hence in range. -/
theorem exec_newProcesses_mem (core : List Instruction) (w : Warrior) (p : Process)
    (ps : List Process) (rand : Int) :
    ∀ q ∈ (executeInstruction core w p ps rand).newProcesses,
      q ∈ ps ∨ (0 ≤ q.pc ∧ q.pc < CORE_SIZE) := by
  simp only [executeInstruction]
  split_ifs <;> intro q hq
  all_goals
    first
    | exact Or.inl hq
    | (rcases List.mem_append.mp hq with h | h
       · exact Or.inl h
       · rcases List.mem_singleton.mp h with rfl
         exact Or.inr ⟨mod_core_nonneg _, mod_core_lt _⟩)

theorem positions_range (n : Nat) (roff : List Int) (i : Nat) :
    0 ≤ (calculateWarriorPositions n roff).getD i 0 ∧
      (calculateWarriorPositions n roff).getD i 0 < CORE_SIZE := by
  refine getD_prop (fun x => 0 ≤ x ∧ x < CORE_SIZE) _ _ _ ?_ (by decide)
  intro x hx
  rcases List.mem_map.mp hx with ⟨j, -, rfl⟩
  exact ⟨mod_core_nonneg _, mod_core_lt _⟩

theorem loadLoop_pcs (ds : List WarriorDefinition) (positions procIds : List Int)
    (w : Nat) (core : List Instruction) (res : List Instruction × List Warrior)
    (hres : loadLoop ds positions procIds w core = some res)
    (hpos : ∀ i : Nat, 0 ≤ positions.getD i 0 ∧ positions.getD i 0 < CORE_SIZE) :
    ∀ wr ∈ res.2, ∀ p ∈ wr.processes, 0 ≤ p.pc ∧ p.pc < CORE_SIZE := by
  induction ds generalizing w core res with
  | nil =>
      simp only [loadLoop, Option.some.injEq] at hres
      rw [← hres]
      intro wr hwr
      cases hwr
  | cons d rest ih =>
      simp only [loadLoop] at hres
      cases hpd : parseProgram (warriorLines d.redcode) d.id with
      | none => simp only [hpd] at hres; cases hres
      | some instrs =>
          simp only [hpd] at hres
          cases hrec : loadLoop rest positions procIds (w + 1)
              (writeInstructions core (positions.getD w 0) instrs) with
          | none => simp only [hrec, Option.map_none'] at hres; cases hres
          | some r2 =>
              rw [hrec] at hres
              simp only [Option.map_some', Option.some.injEq] at hres
              rw [← hres]
              intro wr hwr p hp
              rcases List.mem_cons.mp hwr with rfl | hwr'
              · rcases List.mem_singleton.mp hp with rfl
                exact hpos w
              · exact ih (w + 1) _ r2 hrec wr hwr' p hp

/-- C10: every live process's program counter lies in `[0, CORE_SIZE)`:
any load puts each initial process at a `mod`-reduced start position, and
every scheduling cycle preserves the property (default advances, JMP
targets and SPL spawn addresses are all `mod`-reduced before being
stored), so `core[process.pc]` is always an in-bounds read. -/
theorem pc_always_in_range :
    (∀ (defs : List WarriorDefinition) (randomOffsets procIds : List Int) (prev : GameState),
      pcInRange (loadWarriors defs randomOffsets procIds prev))
    ∧ (∀ (rand : Int) (st : GameState), pcInRange st → pcInRange (runCycle rand st)) := by
  constructor
  · intro defs randomOffsets procIds prev
    simp only [loadWarriors]
    cases hl : loadLoop defs (calculateWarriorPositions defs.length randomOffsets)
        procIds 0 emptyCore with
    | none =>
        intro w hw
        cases hw
    | some res =>
        intro w hw p hp
        exact loadLoop_pcs defs _ procIds 0 emptyCore res hl
          (fun i => positions_range defs.length randomOffsets i) w hw p hp
  · intro rand st hst
    by_cases h0 : st.warriors.length = 0
    · simp only [runCycle, h0, if_pos rfl]
      simpa using hst
    · have hpos : (0:Int) < st.warriors.length := by
        exact_mod_cast Nat.pos_of_ne_zero h0
      have hcwi : (mod st.activeWarriorIndex st.warriors.length).toNat <
          st.warriors.length := by
        have h1 := mod_nonneg st.activeWarriorIndex st.warriors.length hpos
        have h2 := mod_lt st.activeWarriorIndex st.warriors.length hpos
        omega
      have hcw : st.warriors.getD (mod st.activeWarriorIndex st.warriors.length).toNat
          defaultWarrior ∈ st.warriors := by
        rw [List.getD_eq_getElem _ _ hcwi]
        exact List.getElem_mem hcwi
      simp only [runCycle, h0, if_false]
      by_cases hz : (st.warriors.getD (mod st.activeWarriorIndex st.warriors.length).toNat
          defaultWarrior).processes.length = 0
      · rw [if_pos hz]
        intro w hw p hp
        exact hst w ((List.eraseIdx_sublist _ _).subset hw) p hp
      · rw [if_neg hz]
        intro w hw p hp
        rcases List.mem_or_eq_of_mem_set hw with hw' | rfl
        · exact hst w hw' p hp
        · set cw := st.warriors.getD (mod st.activeWarriorIndex st.warriors.length).toNat
            defaultWarrior with hcwdef
          by_cases hk : (executeInstruction st.core cw
              (cw.processes.getD (mod st.activeProcessIndex cw.processes.length).toNat
                defaultProcess) cw.processes rand).processKilled
          · rw [if_pos hk] at hp
            simp only at hp
            exact hst cw hcw p ((List.eraseIdx_sublist _ _).subset hp)
          · rw [if_neg hk] at hp
            simp only at hp
            rcases List.mem_or_eq_of_mem_set hp with hp' | rfl
            · rcases exec_newProcesses_mem st.core cw
                (cw.processes.getD (mod st.activeProcessIndex cw.processes.length).toNat
                  defaultProcess) cw.processes rand _ hp' with h | h
              · exact hst cw hcw _ h
              · exact h
            · exact exec_nextPc_range st.core cw
                (cw.processes.getD (mod st.activeProcessIndex cw.processes.length).toNat
                  defaultProcess) cw.processes rand

/-- Witness for C10: the preservation half applied to a concrete in-range
state. -/
theorem pc_always_in_range_witness : pcInRange (runCycle 0 demoElimState) :=
  pc_always_in_range.2 0 demoElimState (by unfold pcInRange; decide)

/-! ### C4 — the Imp -/

theorem getD_set_self {α : Type} (l : List α) (i : Nat) (x : α) (d : α)
    (h : i < l.length) : (l.set i x).getD i d = x := by
  rw [List.getD_eq_getElem _ _ (by simpa using h)]
  exact List.getElem_set_self _

/-- The app's default warrior definition: the single-line Imp. -/
def impDef : WarriorDefinition :=
  { id := 1, name := ("The Imp"), redcode := ("MOV 0, 1") }

/-- The state shape the sole-Imp game keeps returning to: one warrior,
one process, indices at 0, not running, `n` cycles executed. -/
def impState (S pid pcv : Int) (core : List Instruction) (n : Nat) : GameState :=
  { core := core,
    warriors := [{ id := 1, name := ("The Imp"), startAddr := S,
                   processes := [{ pc := pcv, processId := pid }] }],
    activeProcessIndex := 0, activeWarriorIndex := 0, cycles := n, isRunning := false }

/-- Executing the Imp instruction at an in-range `pc` copies it one cell
forward and advances to that same cell. -/
theorem exec_imp (core : List Instruction) (w : Warrior) (pid rand : Int)
    (ps : List Process) (pc : Int) (hw : w.id = 1)
    (hpc0 : 0 ≤ pc) (hpc1 : pc < CORE_SIZE)
    (hcell : core.getD pc.toNat initialDat = impInstr) :
    executeInstruction core w { pc := pc, processId := pid } ps rand =
      { newCore := core.set (mod (pc + 1) CORE_SIZE).toNat impInstr,
        newProcesses := ps, processKilled := false,
        nextPc := mod (pc + 1) CORE_SIZE,
        updatedAddresses := [mod (pc + 1) CORE_SIZE] } := by
  have e0 : mod (pc + 0) CORE_SIZE = pc := by
    rw [add_zero]; exact mod_eq_of_range pc CORE_SIZE hpc0 hpc1
  have hopi : impInstr.op = ("MOV") := rfl
  have hmA : impInstr.modeA = ("DIRECT") := rfl
  have hmB : impInstr.modeB = ("DIRECT") := rfl
  have hvA : impInstr.valA = 0 := rfl
  have hvB : impInstr.valB = 1 := rfl
  simp +decide only [executeInstruction, hcell, hopi, hmA, hmB, hvA, hvB,
    getEffectiveAddress, if_true, if_false]
  rw [e0, hcell, hw]
  rfl

theorem parse_imp : parseProgram (warriorLines impDef.redcode) impDef.id =
    some [impInstr] := by decide

theorem positions_one (S : Int) (hS0 : 0 ≤ S) (hS1 : S < CORE_SIZE) :
    calculateWarriorPositions 1 [S] = [S] := by
  unfold calculateWarriorPositions
  have h1 : List.range 1 = [0] := rfl
  rw [h1]
  simp [mod_eq_of_range S CORE_SIZE hS0 hS1]

theorem write_imp (S : Int) (hS0 : 0 ≤ S) (hS1 : S < CORE_SIZE) :
    writeInstructions emptyCore S [impInstr] = emptyCore.set S.toNat impInstr := by
  unfold writeInstructions
  simp [mod_eq_of_range S CORE_SIZE hS0 hS1]

/-- Loading the Imp alone at an in-range start address. -/
theorem load_imp (S pid : Int) (prev : GameState) (hS0 : 0 ≤ S) (hS1 : S < CORE_SIZE) :
    loadWarriors [impDef] [S] [pid] prev =
      impState S pid S (emptyCore.set S.toNat impInstr) 0 := by
  simp only [loadWarriors, loadLoop, List.length_singleton, positions_one S hS0 hS1,
    parse_imp, List.getD_cons_zero, Option.map_some', write_imp S hS0 hS1]
  rfl

/-- One scheduling cycle of the sole-Imp game: the Imp's cell is copied
one ahead and the process advances onto the written cell. -/
theorem imp_step (S pid rand : Int) (core : List Instruction) (n : Nat)
    (hcell : core.getD (mod (S + (n : Int)) CORE_SIZE).toNat initialDat = impInstr) :
    runCycle rand (impState S pid (mod (S + (n : Int)) CORE_SIZE) core n) =
      impState S pid (mod (S + ((n + 1 : Nat) : Int)) CORE_SIZE)
        (core.set (mod (S + ((n + 1 : Nat) : Int)) CORE_SIZE).toNat impInstr) (n + 1) := by
  have hpc0 : 0 ≤ mod (S + (n : Int)) CORE_SIZE := mod_core_nonneg _
  have hpc1 : mod (S + (n : Int)) CORE_SIZE < CORE_SIZE := mod_core_lt _
  have hnext : mod (mod (S + (n : Int)) CORE_SIZE + 1) CORE_SIZE =
      mod (S + ((n + 1 : Nat) : Int)) CORE_SIZE := by
    rw [mod_add_cancel_left (S + (n : Int)) 1 CORE_SIZE CORE_SIZE_pos]
    congr 1
    push_cast
    ring
  have e1 : (mod 0 (1:Int)).toNat = 0 := by decide
  have e2 : mod (0 + 1 : Int) (1:Int) = 0 := by decide
  have e3 : mod ((0:Nat) + 1 : Int) (1:Int) = 0 := by decide
  have e4 : mod (1:Int) (1:Int) = 0 := by decide
  simp +decide only [runCycle, impState, List.length_singleton, Nat.cast_one,
    Nat.cast_zero, Nat.cast_ofNat, e1, e2, e3, zero_add, List.getD_cons_zero,
    if_true, if_false]
  rw [exec_imp core _ pid rand _ (mod (S + (n : Int)) CORE_SIZE) rfl hpc0 hpc1 hcell]
  simp +decide only [if_true, if_false, List.set_cons_zero, List.length_singleton,
    Nat.cast_one, Nat.cast_zero, e1, e2, e3, e4, zero_add]
  rw [hnext]

/-- The sole-Imp game after `N` cycles: the state is `impState` with the
process at `(S + N) mod CORE_SIZE` and the Imp instruction stored there. -/
theorem imp_invariant (S pid : Int) (prev : GameState) (rands : Nat → Int)
    (hS0 : 0 ≤ S) (hS1 : S < CORE_SIZE) : ∀ N : Nat, ∃ core : List Instruction,
    runCycles rands N (loadWarriors [impDef] [S] [pid] prev) =
      impState S pid (mod (S + (N : Int)) CORE_SIZE) core N
    ∧ core.length = 8100
    ∧ core.getD (mod (S + (N : Int)) CORE_SIZE).toNat initialDat = impInstr := by
  intro N
  induction N with
  | zero =>
      refine ⟨emptyCore.set S.toNat impInstr, ?_, ?_, ?_⟩
      · show loadWarriors [impDef] [S] [pid] prev = _
        rw [load_imp S pid prev hS0 hS1]
        have : mod (S + ((0:Nat) : Int)) CORE_SIZE = S := by
          rw [Nat.cast_zero, add_zero]
          exact mod_eq_of_range S CORE_SIZE hS0 hS1
        rw [this]
      · rw [List.length_set, emptyCore_length]
      · have hidx : mod (S + ((0:Nat) : Int)) CORE_SIZE = S := by
          rw [Nat.cast_zero, add_zero]
          exact mod_eq_of_range S CORE_SIZE hS0 hS1
        rw [hidx]
        exact getD_set_self _ _ _ _ (by
          rw [emptyCore_length]
          have hc : CORE_SIZE = 8100 := rfl
          omega)
  | succ n ih =>
      obtain ⟨core, heq, hlen, hcell⟩ := ih
      refine ⟨core.set (mod (S + ((n + 1 : Nat) : Int)) CORE_SIZE).toNat impInstr, ?_, ?_, ?_⟩
      · show runCycle (rands n) (runCycles rands n _) = _
        rw [heq, imp_step S pid (rands n) core n hcell]
      · rw [List.length_set, hlen]
      · exact getD_set_self _ _ _ _ (by
          rw [hlen]
          have h1 := mod_core_nonneg (S + ((n + 1 : Nat) : Int))
          have h2 := mod_core_lt (S + ((n + 1 : Nat) : Int))
          have : CORE_SIZE = 8100 := rfl
          omega)

/-- C4 (amended): loading `MOV 0, 1` as the sole warrior at any in-range
start address `S` and stepping, after each cycle the MOV has been copied
exactly one cell forward (cycle `N+1` overwrites the cell at
`(S + N + 1) mod CORE_SIZE` with the Imp instruction), and immediately
after each step the process's program counter EQUALS the address of the
newly written frontmost copy, `(S + N) mod CORE_SIZE` — it is one more
than the address just executed, not one less than the instruction's
current address as the claim states. -/
theorem imp_copies_forward_pc_at_head (S pid : Int) (prev : GameState)
    (rands : Nat → Int) (N : Nat) (hS0 : 0 ≤ S) (hS1 : S < CORE_SIZE) :
    (runCycles rands N (loadWarriors [impDef] [S] [pid] prev)).warriors =
      [{ id := 1, name := ("The Imp"), startAddr := S,
         processes := [{ pc := mod (S + (N : Int)) CORE_SIZE, processId := pid }] }]
    ∧ (runCycles rands N (loadWarriors [impDef] [S] [pid] prev)).core.getD
        (mod (S + (N : Int)) CORE_SIZE).toNat initialDat = impInstr
    ∧ (runCycles rands (N + 1) (loadWarriors [impDef] [S] [pid] prev)).core =
        (runCycles rands N (loadWarriors [impDef] [S] [pid] prev)).core.set
          (mod (S + ((N + 1 : Nat) : Int)) CORE_SIZE).toNat impInstr := by
  obtain ⟨core, heq, hlen, hcell⟩ := imp_invariant S pid prev rands hS0 hS1 N
  refine ⟨?_, ?_, ?_⟩
  · rw [heq]; rfl
  · rw [heq]; exact hcell
  · show (runCycle (rands N) (runCycles rands N _)).core = _
    rw [heq, imp_step S pid (rands N) core N hcell]
    rfl

/-- Witness for C4 (amended) at `S = 0`, `N = 0`. -/
theorem imp_copies_forward_pc_at_head_witness :
    (runCycles (fun _ => 0) 0 (loadWarriors [impDef] [0] [7] initState)).warriors =
      [{ id := 1, name := ("The Imp"), startAddr := 0,
         processes := [{ pc := mod (0 + ((0 : Nat) : Int)) CORE_SIZE, processId := 7 }] }] :=
  (imp_copies_forward_pc_at_head 0 7 initState (fun _ => 0) 0 (by decide) (by decide)).1

/-- Counterexample to C4 as stated: after one step of the Imp loaded at
address 0, the program counter is 1 and the Imp's frontmost copy sits at
address 1 (cell 2 still holds the neutral DAT), so the pc equals the
instruction's current address and is NOT one less than it
(`1 ≠ (1 - 1) mod CORE_SIZE`). -/
theorem imp_pc_not_one_less_counterexample :
    (((runCycles (fun _ => 0) 1 (loadWarriors [impDef] [0] [7] initState)).warriors.getD 0
        defaultWarrior).processes.getD 0 defaultProcess).pc = 1
    ∧ (runCycles (fun _ => 0) 1 (loadWarriors [impDef] [0] [7] initState)).core.getD 1
        initialDat = impInstr
    ∧ (runCycles (fun _ => 0) 1 (loadWarriors [impDef] [0] [7] initState)).core.getD 2
        initialDat ≠ impInstr
    ∧ ¬ ((1 : Int) = mod (1 - 1) CORE_SIZE) := by
  refine ⟨by decide, by decide, by decide, by decide⟩

end CoreWar
